import Mathlib

set_option maxRecDepth 16384

/-!
Verification of the fixture-inference engine of ethspec.tools.

The development shallowly embeds the two scripts of the repository:

* `scripts/deserialize_ssz.py` — path parsing (`parse_ssz_path`), fork
  resolution (the `actual_fork` computation, factored here as
  `resolve_fork`), type-name derivation (`derive_type_from_suite`,
  `derive_type_name`), the fork-transition table loader
  (`load_previous_fork_mapping`) and the decode dispatcher with its
  retry policy (`deserialize_ssz_file`).
* `scripts/check_missing_yamls.py` — the completeness auditor
  (`check_missing_yamls`).

Paths are embedded as their component lists (Python `Path.parts`);
sidecar YAML files (`meta.yaml`, `config.yaml`) are embedded as a
`SidecarFile` value describing what the script would find on disk; the
external decoder and type registry are abstract parameters.

String primitives are re-implemented structurally over `String.data`
(a `List Char` in this Lean version) so that all definitions reduce in
the kernel.  `Char.toLower`/`Char.toUpper` perform the ASCII case map,
which agrees with Python on the ASCII identifiers this code handles.
-/

namespace EthspecTools

/-- Python `sub in s` on character lists: `pat` occurs contiguously in the list. -/
def occursIn (pat : List Char) : List Char → Bool
  | [] => pat.isEmpty
  | l@(_ :: rest) => pat.isPrefixOf l || occursIn pat rest

/-- Python `pat in s` for strings. -/
def strContains (s pat : String) : Bool := occursIn pat.data s.data

/-- Python `s.startswith(pre)`. -/
def strStartsWith (s pre : String) : Bool := pre.data.isPrefixOf s.data

/-- Python `s.endswith(suf)`. -/
def strEndsWith (s suf : String) : Bool := suf.data.isSuffixOf s.data

/-- Python `s.lower()` (ASCII case map, as used on ASCII fork names and keys). -/
def strLower (s : String) : String := ⟨s.data.map Char.toLower⟩

/-- Python `s.upper()` (ASCII case map). -/
def strUpper (s : String) : String := ⟨s.data.map Char.toUpper⟩

/-- Python `str.capitalize()`: first character upper-cased, the rest lower-cased. -/
def pyCapitalize (s : String) : String :=
  match s.data with
  | [] => ⟨[]⟩
  | c :: rest => ⟨c.toUpper :: rest.map Char.toLower⟩

def splitOnCharAux (sep : Char) : List Char → List Char → List (List Char)
  | [], acc => [acc.reverse]
  | c :: rest, acc =>
      if c == sep then acc.reverse :: splitOnCharAux sep rest []
      else splitOnCharAux sep rest (c :: acc)

/-- Python `s.split(sep)` for a one-character separator. -/
def strSplitOnChar (sep : Char) (s : String) : List String :=
  (splitOnCharAux sep s.data []).map (fun l => ⟨l⟩)

def digitsToNat? : List Char → Option Nat
  | [] => none
  | l => l.foldl (fun acc c =>
      match acc with
      | none => none
      | some n => if c.isDigit then some (n * 10 + (c.toNat - 48)) else none)
      (some 0)

/-- Python `int(s)` on the underscore-free, whitespace-free parts this code
feeds it: an optional sign followed by a nonempty digit run; `none` models
the raised `ValueError`. -/
def pyInt? (s : String) : Option Int :=
  match s.data with
  | '-' :: rest => (digitsToNat? rest).map (fun n => -(n : Int))
  | '+' :: rest => (digitsToNat? rest).map (fun n => (n : Int))
  | l => (digitsToNat? l).map (fun n => (n : Int))

/-- `"/".join parts`, i.e. `str(Path)` for the relative paths handled here. -/
def joinSlash : List String → String
  | [] => ""
  | [p] => p
  | p :: rest => p ++ "/" ++ joinSlash rest

/-- First index of `x` in `l` (the scripts' first-match loops and `list.index`). -/
def indexOfFirst (x : String) : List String → Option Nat
  | [] => none
  | p :: rest =>
      if p == x then some 0 else (indexOfFirst x rest).map (· + 1)

/-- What the script finds when it opens a sidecar YAML file next to the fixture:
the file may be absent, may fail YAML parsing (`yaml.safe_load` raises), may
load as `None` (empty file, so attribute access raises), or may parse to a
mapping. -/
inductive SidecarFile (α : Type) where
  | absent : SidecarFile α
  | malformed : SidecarFile α
  | empty : SidecarFile α
  | parsed (a : α) : SidecarFile α

/-- The keys `parse_ssz_path` reads from a per-test `meta.yaml`:
`post_fork` (a string) and `fork_block` (an integer). -/
structure MetaYaml where
  post_fork : Option String
  fork_block : Option Int

/-- The keys `parse_ssz_path` reads from a per-directory `config.yaml`:
`PRESET_BASE` (a string) and the `<FORK>_FORK_EPOCH` integer entries. -/
structure ConfigYaml where
  preset_base : Option String
  fork_epochs : List (String × Int)

/-- The list literal `all_forks` of `parse_ssz_path` (also the fork-name
candidates scanned for in light-client test-case names). -/
def all_forks : List String :=
  ["phase0", "altair", "bellatrix", "capella", "deneb", "electra",
   "eip7805", "fulu", "gloas"]

/-- The filename prefixes whose files may carry a slot number
(light-client slot rule). -/
def lc_slot_prefixes : List String :=
  ["update_", "optimistic_update_", "finality_update_", "bootstrap_", "block_"]

/-- `try: current_fork_idx = all_forks.index(fork) except ValueError: 0`. -/
def currentForkIdx (fork : String) : Nat :=
  (indexOfFirst fork all_forks).getD 0

/-- The first part of `filename.split('_')` that Python `int` accepts. -/
def firstIntPart (filename : String) : Option Int :=
  (strSplitOnChar '_' filename).findSome? pyInt?

/-- `int(filename.split('_')[1].split('.')[0])`; `none` models the caught
`ValueError`/`IndexError`. -/
def parseBlockIndex (filename : String) : Option Int :=
  match (strSplitOnChar '_' filename).get? 1 with
  | none => none
  | some s => pyInt? (((strSplitOnChar '.' s).headD ""))

/-- `parse_ssz_path`, block "For fork tests with pre.ssz_snappy, use the
previous fork": on a `fork` test the directory fork is replaced by its
`PREVIOUS_FORK_OF` entry when one exists (otherwise a warning is printed and
the directory fork kept). -/
def forkTestRule (pfo : List (String × String)) (fork test_type filename : String) : String :=
  if test_type == "fork" && filename == "pre.ssz_snappy" then
    match pfo.lookup fork with
    | some p => p
    | none => fork
  else fork

/-- `parse_ssz_path`, block "For transition tests with pre.ssz_snappy":
reads `meta.yaml`, takes `post_fork` (defaulting to the directory fork,
lower-cased) and uses its `PREVIOUS_FORK_OF` entry; a missing file or missing
predecessor only prints a warning; a file that fails YAML parsing, or loads
as `None`, raises out of the function. -/
def transitionPreRule (pfo : List (String × String)) (fork test_type filename : String)
    (meta : SidecarFile MetaYaml) (prev : String) : Except String String :=
  if test_type == "transition" && filename == "pre.ssz_snappy" then
    match meta with
    | .absent => .ok prev
    | .malformed => .error "YAMLError while parsing meta.yaml"
    | .empty => .error "AttributeError: NoneType object has no attribute get"
    | .parsed m =>
        let post_fork := strLower (m.post_fork.getD fork)
        match pfo.lookup post_fork with
        | some p => .ok p
        | none => .ok prev
  else .ok prev

/-- `parse_ssz_path`, block "For transition tests with blocks_*.ssz_snappy":
parses the block index from the filename (a failed parse is caught and only
warned about), then compares it with `fork_block` from `meta.yaml`: at or
before the boundary the `PREVIOUS_FORK_OF` entry of `post_fork` is used,
after it `post_fork` itself.  A missing `meta.yaml`, a missing `fork_block`
key or a missing predecessor entry degrade with a warning; a `meta.yaml`
that fails YAML parsing, or loads as `None`, raises. -/
def transitionBlocksRule (pfo : List (String × String)) (fork test_type filename : String)
    (meta : SidecarFile MetaYaml) (prev : String) : Except String String :=
  if test_type == "transition" && strStartsWith filename "blocks_" then
    match parseBlockIndex filename with
    | none => .ok prev
    | some block_index =>
        match meta with
        | .absent => .ok prev
        | .malformed => .error "YAMLError while parsing meta.yaml"
        | .empty => .error "AttributeError: NoneType object has no attribute get"
        | .parsed m =>
            let post_fork := strLower (m.post_fork.getD fork)
            match m.fork_block with
            | none => .ok prev
            | some fork_block =>
                if block_index ≤ fork_block then
                  match pfo.lookup post_fork with
                  | some p => .ok p
                  | none => .ok prev
                else .ok post_fork
  else .ok prev

/-- The `for i in range(current_fork_idx, len(all_forks))` loop of the
light-client slot rule: advance `selected` to every fork whose
`<FORK>_FORK_EPOCH` key is present with `epoch >= fork_epoch`, skip forks
whose key is absent, and stop at the first fork whose present activation
epoch has not been reached. -/
def walk_forks (fork_epochs : List (String × Int)) (epoch : Int) :
    List String → String → String
  | [], selected => selected
  | f :: rest, selected =>
      match fork_epochs.lookup (strUpper f ++ "_FORK_EPOCH") with
      | none => walk_forks fork_epochs epoch rest selected
      | some fork_epoch =>
          if fork_epoch ≤ epoch then walk_forks fork_epochs epoch rest f
          else selected

/-- `parse_ssz_path`, tail of the light-client block: when no slot number was
found, a non-`sync` suite whose test-case name embeds known fork names uses
the last (newest) such name. -/
def multiForkNameRule (fork test_suite : String) (fork_names : List String)
    (prev : String) : String :=
  if !fork_names.isEmpty && test_suite != "sync" then
    let selected := fork_names.getLastD fork
    if selected != fork then selected else prev
  else prev

/-- `parse_ssz_path`, block "For light_client tests": fork names embedded in
the test-case name (empty for `initial_state.ssz_snappy`), the slot rule for
filenames carrying a recognised prefix and a numeric part (slot→epoch via
`PRESET_BASE`, then `walk_forks` starting from the directory fork), and the
multi-fork-name rule otherwise.  A missing `config.yaml` skips the slot rule;
one that fails YAML parsing, or loads as `None`, raises. -/
def lightClientRule (fork test_type test_suite test_case filename : String)
    (config : SidecarFile ConfigYaml) (prev : String) : Except String String :=
  if test_type == "light_client" then
    let fork_names :=
      if filename == "initial_state.ssz_snappy" then []
      else all_forks.filter (fun pf => strContains (strLower test_case) pf)
    if lc_slot_prefixes.any (fun pre => strStartsWith filename pre) then
      match firstIntPart filename with
      | none => .ok (multiForkNameRule fork test_suite fork_names prev)
      | some slot =>
          match config with
          | .absent => .ok prev
          | .malformed => .error "YAMLError while parsing config.yaml"
          | .empty => .error "AttributeError: NoneType object has no attribute get"
          | .parsed c =>
              let preset_base := strLower (c.preset_base.getD "mainnet")
              let slots_per_epoch : Int := if preset_base == "minimal" then 8 else 32
              let epoch := Int.fdiv slot slots_per_epoch
              let selected :=
                walk_forks c.fork_epochs epoch (all_forks.drop (currentForkIdx fork)) fork
              if selected != fork then .ok selected else .ok prev
    else .ok (multiForkNameRule fork test_suite fork_names prev)
  else .ok prev

/-- The complete `actual_fork` computation of `parse_ssz_path`: the four
rule blocks applied in program order, threading the effective fork. -/
def resolve_fork (pfo : List (String × String))
    (fork test_type test_suite test_case filename : String)
    (meta : SidecarFile MetaYaml) (config : SidecarFile ConfigYaml) :
    Except String String :=
  let f1 := forkTestRule pfo fork test_type filename
  match transitionPreRule pfo fork test_type filename meta f1 with
  | .error e => .error e
  | .ok f2 =>
      match transitionBlocksRule pfo fork test_type filename meta f2 with
      | .error e => .error e
      | .ok f3 => lightClientRule fork test_type test_suite test_case filename config f3

/-- The filename list of the first check of `derive_type_from_suite`:
full-state files. -/
def pre_state_filenames : List String :=
  ["pre.ssz_snappy", "post.ssz_snappy", "pre_epoch.ssz_snappy",
   "post_epoch.ssz_snappy", "initial_state.ssz_snappy"]

/-- The `type_map` literal of the operations branch of `derive_type_from_suite`. -/
def operations_type_map : List (String × String) :=
  [("attestation", "Attestation"),
   ("attester_slashing", "AttesterSlashing"),
   ("block_header", "BeaconBlock"),
   ("deposit", "Deposit"),
   ("proposer_slashing", "ProposerSlashing"),
   ("voluntary_exit", "SignedVoluntaryExit"),
   ("sync_aggregate", "SyncAggregate"),
   ("execution_payload", "ExecutionPayload"),
   ("withdrawals", "ExecutionPayload"),
   ("bls_to_execution_change", "SignedBLSToExecutionChange")]

/-- First matching rule wins; `none` falls through to the next block
(each Python block returns on a hit and falls through otherwise). -/
def orTry (a b : Option String) : Option String :=
  match a with
  | some t => some t
  | none => b

/-- First three checks of `derive_type_from_suite`: full-state files,
`body.ssz_snappy`, `signed_envelope.ssz_snappy`. -/
def fixedFilenameRule (filename : String) : Option String :=
  if pre_state_filenames.contains filename then some "BeaconState"
  else if filename == "body.ssz_snappy" then some "BeaconBlockBody"
  else if filename == "signed_envelope.ssz_snappy" then
    some "SignedExecutionPayloadEnvelope"
  else none

/-- The `fork_choice`/`sync` filename-prefix block of `derive_type_from_suite`. -/
def forkChoiceFilenameRule (test_type filename : String) : Option String :=
  if test_type == "fork_choice" || test_type == "sync" then
    if filename == "anchor_state.ssz_snappy" then some "BeaconState"
    else if filename == "anchor_block.ssz_snappy" then some "BeaconBlock"
    else if strStartsWith filename "block_" then some "SignedBeaconBlock"
    else if strStartsWith filename "attestation_" then some "Attestation"
    else if strStartsWith filename "attester_slashing_" then some "AttesterSlashing"
    else if strStartsWith filename "pow_block_" then some "PowBlock"
    else if strStartsWith filename "column_" then some "DataColumnSidecar"
    else if strStartsWith filename "blobs_" then some "BlobSidecar"
    else none
  else none

/-- The first `light_client` block of `derive_type_from_suite`
(`data_collection` block files, `update_ranking`, the `sync` suite; the
`single_merkle_proof` branch is a `pass`). -/
def lightClientSuiteRule (test_type test_suite filename : String) : Option String :=
  if test_type == "light_client" then
    if test_suite == "data_collection" && strStartsWith filename "block_" then
      some "SignedBeaconBlock"
    else if test_suite == "update_ranking"
        && (strStartsWith filename "update_" || strStartsWith filename "updates_") then
      some "LightClientUpdate"
    else if test_suite == "sync" then
      if strStartsWith filename "update_" then some "LightClientUpdate"
      else if strStartsWith filename "optimistic_update_" then
        some "LightClientOptimisticUpdate"
      else if strStartsWith filename "finality_update_" then
        some "LightClientFinalityUpdate"
      else if strStartsWith filename "bootstrap_" || filename == "bootstrap.ssz_snappy" then
        some "LightClientBootstrap"
      else none
    else none
  else none

/-- The `rewards` block of `derive_type_from_suite`. -/
def rewardsRule (test_type filename : String) : Option String :=
  if test_type == "rewards" && strEndsWith filename "_deltas.ssz_snappy" then
    some "Deltas"
  else none

/-- The `genesis` block of `derive_type_from_suite`. -/
def genesisRule (test_type filename : String) : Option String :=
  if test_type == "genesis" then
    if strStartsWith filename "deposits_" then some "Deposit"
    else if filename == "state.ssz_snappy" || filename == "genesis.ssz_snappy" then
      some "BeaconState"
    else none
  else none

/-- The second `light_client`/`data_collection` block of
`derive_type_from_suite`. -/
def lightClientDataCollectionRule (test_type test_suite filename : String) :
    Option String :=
  if test_type == "light_client" && test_suite == "data_collection" then
    if strStartsWith filename "update_" then some "LightClientUpdate"
    else if strStartsWith filename "optimistic_update_" then
      some "LightClientOptimisticUpdate"
    else if strStartsWith filename "finality_update_" then
      some "LightClientFinalityUpdate"
    else if strStartsWith filename "bootstrap_" then some "LightClientBootstrap"
    else none
  else none

/-- `block.ssz_snappy` inside `operations`' `block_header` and
`execution_payload_bid` suites denotes the unsigned block. -/
def operationsBlockRule (test_type test_suite filename : String) : Option String :=
  if test_type == "operations"
      && (test_suite == "block_header" || test_suite == "execution_payload_bid")
      && filename == "block.ssz_snappy" then
    some "BeaconBlock"
  else none

/-- Generic `blocks_*`/`block.ssz_snappy` filenames denote the signed block. -/
def blocksFilenameRule (filename : String) : Option String :=
  if strStartsWith filename "blocks_" || filename == "block.ssz_snappy" then
    some "SignedBeaconBlock"
  else none

/-- The `operations` suite-name table of `derive_type_from_suite`. -/
def operationsSuiteRule (test_type test_suite : String) : Option String :=
  if test_type == "operations" then operations_type_map.lookup test_suite
  else none

/-- Python `''.join(...)`. -/
def strJoin (l : List String) : String := l.foldl (fun a b => a ++ b) ""

/-- The default branch of `derive_type_from_suite`: snake_case suite name to
PascalCase. -/
def defaultSuiteType (test_suite : String) : String :=
  strJoin ((strSplitOnChar '_' test_suite).map pyCapitalize)

/-- `derive_type_from_suite`: the ordered filename/suite cascade mapping a
test type, suite and filename to an SSZ type name, blocks in source order;
a block that does not return falls through to the next. -/
def derive_type_from_suite (test_type test_suite filename : String) : String :=
  (orTry (fixedFilenameRule filename)
  (orTry (forkChoiceFilenameRule test_type filename)
  (orTry (lightClientSuiteRule test_type test_suite filename)
  (orTry (rewardsRule test_type filename)
  (orTry (genesisRule test_type filename)
  (orTry (lightClientDataCollectionRule test_type test_suite filename)
  (orTry (operationsBlockRule test_type test_suite filename)
  (orTry (blocksFilenameRule filename)
         (operationsSuiteRule test_type test_suite))))))))).getD
    (defaultSuiteType test_suite)

/-- The type-name dispatch of `parse_ssz_path`: `ssz_static` uses the suite
segment as the type name; the `single_merkle_proof` object file takes the
type name from the path segment after the suite (raising when the path is
too short); everything else goes through `derive_type_from_suite`.
`type_segment` is `parts[tests_idx + 5]` when that index exists. -/
def derive_type_name (test_type test_suite filename : String)
    (type_segment : Option String) : Except String String :=
  if test_type == "ssz_static" then .ok test_suite
  else if (test_type == "light_client" || test_type == "merkle_proof")
      && test_suite == "single_merkle_proof" && filename == "object.ssz_snappy" then
    match type_segment with
    | some t => .ok t
    | none => .error "Path too short for single_merkle_proof test"
  else .ok (derive_type_from_suite test_type test_suite filename)

/-- The result of `parse_ssz_path`: `(preset, actual_fork, type_name, filename)`. -/
structure ParseResult where
  preset : String
  fork : String
  type_name : String
  filename : String
deriving DecidableEq

/-- `parse_ssz_path`: locate the `tests` marker, require four segments after
it, extract preset / directory fork / test type / suite and the filename,
resolve the effective fork and derive the type name.  The path is given as
its component list (`Path.parts`); the two sidecar parameters describe what
the script would find at `parent/meta.yaml` and `parent/config.yaml`. -/
def parse_ssz_path (pfo : List (String × String)) (parts : List String)
    (meta : SidecarFile MetaYaml) (config : SidecarFile ConfigYaml) :
    Except String ParseResult :=
  match indexOfFirst "tests" parts with
  | none => .error "Path must contain tests directory"
  | some tests_idx =>
      if parts.length < tests_idx + 5 then .error "Path too short"
      else
        let preset := parts.getD (tests_idx + 1) ""
        let fork := parts.getD (tests_idx + 2) ""
        let test_type := parts.getD (tests_idx + 3) ""
        let test_suite := parts.getD (tests_idx + 4) ""
        let filename := parts.getLastD ""
        let test_case := parts.getD (tests_idx + 6) ""
        match resolve_fork pfo fork test_type test_suite test_case filename meta config with
        | .error e => .error e
        | .ok actual_fork =>
            match derive_type_name test_type test_suite filename
                (parts.get? (tests_idx + 5)) with
            | .error e => .error e
            | .ok type_name => .ok ⟨preset, actual_fork, type_name, filename⟩

/-- The fixed candidate list scanned by `deserialize_ssz_file` when building
`alternative_forks`. -/
def retry_fork_candidates : List String :=
  ["deneb", "electra", "capella", "bellatrix", "altair"]

/-- `'light_client' in str(input_path) and '/sync/' in str(input_path)`. -/
def is_light_client_sync (parts : List String) : Bool :=
  strContains (joinSlash parts) "light_client" && strContains (joinSlash parts) "/sync/"

/-- The `alternative_forks` list of `deserialize_ssz_file`: candidates from
the fixed list, in that fixed order, that occur in the lower-cased path and
differ from the fork already attempted. -/
def alternative_forks (parts : List String) (fork : String) : List String :=
  retry_fork_candidates.filter
    (fun pf => strContains (strLower (joinSlash parts)) pf && pf != fork)

/-- One decode attempt under a given fork: resolve the type handle
(`get_ssz_type_class`, abstracted as `typeLookup` at the fixed preset and
type name) and run the external decoder on the raw bytes (`decodeBytes`). -/
def decodeAttempt {Ty Obj : Type} (typeLookup : String → Except String Ty)
    (decodeBytes : Ty → Except String Obj) (fork : String) : Except String Obj :=
  match typeLookup fork with
  | .error e => .error e
  | .ok ty => decodeBytes ty

/-- The retry loop of `deserialize_ssz_file`: attempt each alternative fork
in order (any exception continues to the next), return the first success
together with the fork that produced it, and re-raise the original error
`e` when every alternative fails. -/
def tryAlternatives {Ty Obj : Type} (typeLookup : String → Except String Ty)
    (decodeBytes : Ty → Except String Obj) :
    List String → String → Except String (Obj × String)
  | [], e => .error e
  | alt :: rest, e =>
      match decodeAttempt typeLookup decodeBytes alt with
      | .ok obj => .ok (obj, alt)
      | .error _ => tryAlternatives typeLookup decodeBytes rest e

/-- Declarative companion of the retry loop: the first candidate whose
attempt succeeds, with its result. -/
def firstSuccess {Ty Obj : Type} (typeLookup : String → Except String Ty)
    (decodeBytes : Ty → Except String Obj) : List String → Option (Obj × String)
  | [] => none
  | alt :: rest =>
      match decodeAttempt typeLookup decodeBytes alt with
      | .ok obj => some (obj, alt)
      | .error _ => firstSuccess typeLookup decodeBytes rest

/-- `deserialize_ssz_file`: parse the path, resolve the type handle for the
resolved fork, decode, and on decode failure of a light-client sync fixture
retry the alternative forks; the returned pair carries the decoded object
and the fork finally recorded for it. -/
def deserialize_ssz_file {Ty Obj : Type} (pfo : List (String × String))
    (parts : List String) (meta : SidecarFile MetaYaml)
    (config : SidecarFile ConfigYaml) (typeLookup : String → Except String Ty)
    (decodeBytes : Ty → Except String Obj) : Except String (Obj × String) :=
  match parse_ssz_path pfo parts meta config with
  | .error e => .error e
  | .ok r =>
      let is_lcs := is_light_client_sync parts
      let alts := if is_lcs then alternative_forks parts r.fork else []
      match typeLookup r.fork with
      | .error e => .error e
      | .ok ty =>
          match decodeBytes ty with
          | .ok obj => .ok (obj, r.fork)
          | .error e =>
              if is_lcs && !alts.isEmpty then
                tryAlternatives typeLookup decodeBytes alts e
              else .error e

/-- Fork names in order of first occurrence in a character list, among the
given names. -/
def occurrenceOrder (names : List String) : List Char → List String → List String
  | [], acc => acc
  | s@(_ :: rest), acc =>
      let here := names.filter (fun n => n.data.isPrefixOf s && !(acc.contains n))
      occurrenceOrder names rest (acc ++ here)

/-- Modelled from the spec: the retry-candidate list as the spec words it —
"every known protocol-version name that appears as a substring of the file's
full path and differs from the already-attempted fork", "in path-occurrence
order". -/
def claimRetryCandidates (parts : List String) (fork : String) : List String :=
  (occurrenceOrder all_forks (strLower (joinSlash parts)).data []).filter
    (fun pf => pf != fork)

/-- Modelled from the spec: `deserialize_ssz_file` as the retry-policy claim
describes it, identical to the source embedding except that the candidates
are `claimRetryCandidates` instead of `alternative_forks`. -/
def deserialize_ssz_file_claim {Ty Obj : Type} (pfo : List (String × String))
    (parts : List String) (meta : SidecarFile MetaYaml)
    (config : SidecarFile ConfigYaml) (typeLookup : String → Except String Ty)
    (decodeBytes : Ty → Except String Obj) : Except String (Obj × String) :=
  match parse_ssz_path pfo parts meta config with
  | .error e => .error e
  | .ok r =>
      let is_lcs := is_light_client_sync parts
      let alts := if is_lcs then claimRetryCandidates parts r.fork else []
      match typeLookup r.fork with
      | .error e => .error e
      | .ok ty =>
          match decodeBytes ty with
          | .ok obj => .ok (obj, r.fork)
          | .error e =>
              if is_lcs && !alts.isEmpty then
                tryAlternatives typeLookup decodeBytes alts e
              else .error e

/-- Python `str.isspace` members relevant to `strip`. -/
def isPySpace (c : Char) : Bool :=
  c == ' ' || c == '\t' || c == '\n' || c == '\r' || c == '\x0b' || c == '\x0c'

/-- Python `s.strip()`. -/
def pyStrip (s : String) : String :=
  ⟨((s.data.dropWhile isPySpace).reverse.dropWhile isPySpace).reverse⟩

/-- Python `s.rstrip(',')`. -/
def rstripComma (s : String) : String :=
  ⟨(s.data.reverse.dropWhile (fun c => c == ',')).reverse⟩

def skipPySpace (l : List Char) : List Char := l.dropWhile isPySpace

/-- Try to match `PREVIOUS_FORK_OF\s*=\s*\x7b` at the head of the list,
returning what follows the opening brace. -/
def matchMapHeader (s : List Char) : Option (List Char) :=
  if ("PREVIOUS_FORK_OF").data.isPrefixOf s then
    match skipPySpace (s.drop ("PREVIOUS_FORK_OF").data.length) with
    | '=' :: r =>
        match skipPySpace r with
        | '\x7b' :: body => some body
        | _ => none
    | _ => none
  else none

/-- The regex search of `load_previous_fork_mapping`: the capture of
`PREVIOUS_FORK_OF\s*=\s*\x7b([^\x7d]+)\x7d` at its leftmost match. -/
def findMapBody : List Char → Option (List Char)
  | [] => none
  | s@(_ :: rest) =>
      match matchMapHeader s with
      | some body =>
          let captured := body.takeWhile (fun c => c != '\x7d')
          if !captured.isEmpty && body.any (fun c => c == '\x7d') then some captured
          else findMapBody rest
      | none => findMapBody rest

/-- Python dict assignment `d[k] = v`: overwrite in place or append. -/
def dictInsert : List (String × String) → String → String → List (String × String)
  | [], k, v => [(k, v)]
  | (k₁, v₁) :: rest, k, v =>
      if k₁ == k then (k₁, v) :: rest else (k₁, v₁) :: dictInsert rest k v

/-- The per-line parse of `load_previous_fork_mapping`: strip, skip comment
lines and lines without a colon, split on colons, keep exactly-two-part
lines, strip the key, strip the value and drop trailing commas, skip empty
and `None` values, store lower-cased. -/
def parseForkLine (acc : List (String × String)) (line : String) :
    List (String × String) :=
  let stripped := pyStrip line
  if strContains stripped ":" && !(strStartsWith stripped "#") then
    let ps := strSplitOnChar ':' stripped
    if ps.length == 2 then
      let key := pyStrip (ps.getD 0 "")
      let value := rstripComma (pyStrip (ps.getD 1 ""))
      if value != "" && value != "None" then
        dictInsert acc (strLower key) (strLower value)
      else acc
    else acc
  else acc

/-- `load_previous_fork_mapping`, applied to the text of the specification
artifact (`constants.py`): locate the `PREVIOUS_FORK_OF` dictionary literal
and parse its lines into a fork-to-predecessor mapping. -/
def load_previous_fork_mapping (content : String) : List (String × String) :=
  match findMapBody content.data with
  | none => []
  | some body => ((strSplitOnChar '\n' ⟨body⟩)).foldl parseForkLine []

/-- Modelled from the spec: the `PREVIOUS_FORK_OF` dictionary of the external
specification artifact (`consensus-specs` `constants.py`) is not part of this
repository; its entries are reconstructed from the ordered protocol-version
list, each version mapping to its immediate predecessor and the genesis
version to `None`. -/
def constants_py_content : String :=
  "PREVIOUS_FORK_OF = \x7b\n    PHASE0: None,\n    ALTAIR: PHASE0,\n    BELLATRIX: ALTAIR,\n    CAPELLA: BELLATRIX,\n    DENEB: CAPELLA,\n    ELECTRA: DENEB,\n    EIP7805: ELECTRA,\n    FULU: EIP7805,\n    GLOAS: FULU,\n\x7d\n"

/-- The module-level `PREVIOUS_FORK_OF` mapping: the loader applied to the
modelled artifact text. -/
def PREVIOUS_FORK_OF : List (String × String) :=
  load_previous_fork_mapping constants_py_content

/-- Follow predecessor links for at most the given number of steps; a
version without an entry is a fixed point. -/
def predChain (pfo : List (String × String)) : Nat → String → String
  | 0, f => f
  | n + 1, f =>
      match pfo.lookup f with
      | none => f
      | some p => predChain pfo n p

/-- The report of `check_missing_yamls`. -/
structure Report where
  total_ssz : Nat
  total_yaml : Nat
  missing_count : Nat
  missing_by_test_type : List (String × Nat)
  missing_files : List String
deriving DecidableEq

/-- `defaultdict(int)` increment `d[k] += 1` (insertion order preserved). -/
def bump : List (String × Nat) → String → List (String × Nat)
  | [], k => [(k, 1)]
  | (k₁, n) :: rest, k =>
      if k₁ == k then (k₁, n + 1) :: rest else (k₁, n) :: bump rest k

/-- The four-segment category key
`f"\x7bparts[0]\x7d/\x7bparts[1]\x7d/\x7bparts[2]\x7d/\x7bparts[3]\x7d"`. -/
def testKey (p : List String) : String := joinSlash (p.take 4)

/-- `file.endswith('.ssz_snappy') and not file.endswith('.ssz_snappy.yaml')`. -/
def isSszName (name : String) : Bool :=
  strEndsWith name ".ssz_snappy" && !(strEndsWith name ".ssz_snappy.yaml")

/-- The companion path `Path(root) / (file + '.yaml')`. -/
def companionPath (p : List String) : List String :=
  p.dropLast ++ [p.getLastD "" ++ ".yaml"]

/-- The per-file body of the `check_missing_yamls` walk.  `fs` is the set of
files in the tree (paths relative to the tests directory, as segment lists);
`p` is the current file. -/
def processFile (fs : List (List String)) (st : Report) (p : List String) : Report :=
  if isSszName (p.getLastD "") then
    let st1 := { st with total_ssz := st.total_ssz + 1 }
    if fs.contains (companionPath p) then
      { st1 with total_yaml := st1.total_yaml + 1 }
    else
      let st2 := { st1 with missing_count := st1.missing_count + 1 }
      if 4 ≤ p.length then
        { st2 with
            missing_by_test_type := bump st2.missing_by_test_type (testKey p),
            missing_files := st2.missing_files ++ [joinSlash p] }
      else st2
  else st

/-- The files visited by the walk: everything under the `minimal` subtree,
then everything under the `mainnet` subtree. -/
def walkOrder (fs : List (List String)) : List (List String) :=
  fs.filter (fun p => p.headD "" == "minimal")
    ++ fs.filter (fun p => p.headD "" == "mainnet")

/-- `check_missing_yamls`: fold the per-file body over the walk, starting
from the zeroed report. -/
def check_missing_yamls (fs : List (List String)) : Report :=
  (walkOrder fs).foldl (processFile fs) ⟨0, 0, 0, [], []⟩

/-- The binary fixtures of the walk that lack a companion file. -/
def missingFiles (fs : List (List String)) : List (List String) :=
  (walkOrder fs).filter
    (fun p => isSszName (p.getLastD "") && !(fs.contains (companionPath p)))

/-- The count recorded for a category key in the report map. -/
def countKey (m : List (String × Nat)) (k : String) : Nat := (m.lookup k).getD 0

/-- A ten-fixture audit scenario: category A
(`minimal/altair/operations/attestation`) holds five binary fixtures, two of
them without companions; category B (`minimal/deneb/sanity/blocks`) holds
two binary fixtures, one without a companion; three further mainnet binary
fixtures all have companions. -/
def exampleTree : List (List String) :=
  [["minimal", "altair", "operations", "attestation", "case_0", "pre.ssz_snappy"],
   ["minimal", "altair", "operations", "attestation", "case_0", "pre.ssz_snappy.yaml"],
   ["minimal", "altair", "operations", "attestation", "case_0", "post.ssz_snappy"],
   ["minimal", "altair", "operations", "attestation", "case_0", "post.ssz_snappy.yaml"],
   ["minimal", "altair", "operations", "attestation", "case_0", "attestation.ssz_snappy"],
   ["minimal", "altair", "operations", "attestation", "case_0", "attestation.ssz_snappy.yaml"],
   ["minimal", "altair", "operations", "attestation", "case_1", "post.ssz_snappy"],
   ["minimal", "altair", "operations", "attestation", "case_1", "pre.ssz_snappy"],
   ["minimal", "deneb", "sanity", "blocks", "case_0", "blocks_0.ssz_snappy"],
   ["minimal", "deneb", "sanity", "blocks", "case_0", "blocks_0.ssz_snappy.yaml"],
   ["minimal", "deneb", "sanity", "blocks", "case_1", "blocks_0.ssz_snappy"],
   ["mainnet", "electra", "epoch_processing", "slashings", "case_0", "pre.ssz_snappy"],
   ["mainnet", "electra", "epoch_processing", "slashings", "case_0", "pre.ssz_snappy.yaml"],
   ["mainnet", "electra", "epoch_processing", "slashings", "case_0", "post.ssz_snappy"],
   ["mainnet", "electra", "epoch_processing", "slashings", "case_0", "post.ssz_snappy.yaml"],
   ["mainnet", "electra", "epoch_processing", "slashings", "case_1", "pre.ssz_snappy"],
   ["mainnet", "electra", "epoch_processing", "slashings", "case_1", "pre.ssz_snappy.yaml"]]

/-- Code-point lexicographic order on character lists (the order Python
`sorted` applies to the missing-path strings). -/
def listLexLe : List Char → List Char → Bool
  | [], _ => true
  | _ :: _, [] => false
  | a :: as, b :: bs => if a == b then listLexLe as bs else decide (a.toNat < b.toNat)

/-- Code-point lexicographic order on strings. -/
def pyStrLe (s t : String) : Bool := listLexLe s.data t.data

/-! ### Helper lemmas -/

theorem transitionPreRule_absent (pfo : List (String × String)) (fork tt fn prev : String) :
    transitionPreRule pfo fork tt fn .absent prev = .ok prev := by
  unfold transitionPreRule
  split <;> rfl

theorem transitionBlocksRule_absent (pfo : List (String × String)) (fork tt fn prev : String) :
    transitionBlocksRule pfo fork tt fn .absent prev = .ok prev := by
  unfold transitionBlocksRule
  split
  · split <;> rfl
  · rfl

theorem lightClientRule_config_absent (fork tt ts tc fn prev : String) :
    ∃ g, lightClientRule fork tt ts tc fn .absent prev = .ok g := by
  unfold lightClientRule
  repeat' split
  all_goals try exact ⟨_, rfl⟩
  all_goals (exfalso; simp_all)

theorem startsWith_blocks_beq_pre_false (fn : String)
    (h : strStartsWith fn "blocks_" = true) : (fn == "pre.ssz_snappy") = false := by
  by_cases hq : fn = "pre.ssz_snappy"
  · subst hq
    exact absurd h (by decide)
  · exact beq_eq_false_iff_ne.mpr hq

/-! ### C3 — transition-predecessor rule -/

/-- C3: for a single-step fork-transition fixture (the `fork` category) whose
filename is the pre-transition artifact `pre.ssz_snappy`, when the directory
fork `F` has predecessor `P` in the fork-transition table, `resolve_fork`
returns `P`. -/
theorem c3_transition_predecessor (pfo : List (String × String)) (F P ts tc : String)
    (meta : SidecarFile MetaYaml) (config : SidecarFile ConfigYaml)
    (hpred : pfo.lookup F = some P) :
    resolve_fork pfo F "fork" ts tc "pre.ssz_snappy" meta config = .ok P := by
  have h : resolve_fork pfo F "fork" ts tc "pre.ssz_snappy" meta config
      = .ok (match pfo.lookup F with | some p => p | none => F) := rfl
  rw [h, hpred]

/-- Witness for C3: directory fork `altair` with table predecessor `phase0`. -/
theorem c3_witness_altair :
    resolve_fork [("altair", "phase0")] "altair" "fork" "fork" "case_0"
      "pre.ssz_snappy" .absent .absent = .ok "phase0" :=
  c3_transition_predecessor [("altair", "phase0")] "altair" "phase0" "fork" "case_0"
    .absent .absent rfl

/-! ### C6 — light-client initial snapshot keeps the directory fork -/

/-- C6: for a light-client fixture named `initial_state.ssz_snappy`,
`resolve_fork` returns the directory fork unconditionally — for every
suite, test-case name (however many fork names it embeds) and sidecar
contents, the multi-fork-name rule is overridden. -/
theorem c6_initial_state_directory_fork (pfo : List (String × String))
    (F ts tc : String) (meta : SidecarFile MetaYaml) (config : SidecarFile ConfigYaml) :
    resolve_fork pfo F "light_client" ts tc "initial_state.ssz_snappy" meta config
      = .ok F := rfl

/-! ### C7 — sidecar degradation -/

/-- C7 (amended): a MISSING sidecar file never fails the resolution — with
both sidecars absent every resolution succeeds; on `transition` fixtures an
absent `meta.yaml` yields the directory fork; on light-client slot-rule
fixtures an absent `config.yaml` yields the directory fork.  (The original
claim also covered unparsable sidecar files; an unparsable `meta.yaml` makes
the resolution raise, so that part is dropped here.) -/
theorem c7_missing_sidecar_degrades :
    (∀ (pfo : List (String × String)) (F tt ts tc fn : String),
      ∃ g, resolve_fork pfo F tt ts tc fn .absent .absent = .ok g)
    ∧ (∀ (pfo : List (String × String)) (F ts tc fn : String)
        (config : SidecarFile ConfigYaml),
        resolve_fork pfo F "transition" ts tc fn .absent config = .ok F)
    ∧ (∀ (pfo : List (String × String)) (F ts tc fn : String)
        (meta : SidecarFile MetaYaml) (S : Int),
        lc_slot_prefixes.any (fun pre => strStartsWith fn pre) = true →
        firstIntPart fn = some S →
        resolve_fork pfo F "light_client" ts tc fn meta .absent = .ok F) := by
  refine ⟨fun pfo F tt ts tc fn => ?_, fun pfo F ts tc fn config => ?_,
    fun pfo F ts tc fn meta S hpre hslot => ?_⟩
  · unfold resolve_fork
    simp only [transitionPreRule_absent, transitionBlocksRule_absent]
    exact lightClientRule_config_absent F tt ts tc fn (forkTestRule pfo F tt fn)
  · unfold resolve_fork
    simp only [transitionPreRule_absent, transitionBlocksRule_absent]
    rfl
  · have h : resolve_fork pfo F "light_client" ts tc fn meta .absent
        = lightClientRule F "light_client" ts tc fn .absent F := rfl
    rw [h]
    unfold lightClientRule
    simp only [hpre, hslot]
    split
    · rfl
    · rfl

/-- Counterexample for C7 as stated: an UNPARSABLE `meta.yaml` on a
`transition` fixture with `pre.ssz_snappy` makes the resolution raise
instead of degrading to the directory fork. -/
theorem c7_counterexample_malformed_meta :
    resolve_fork [] "bellatrix" "transition" "core" "case_0" "pre.ssz_snappy"
      .malformed .absent = .error "YAMLError while parsing meta.yaml" := rfl

/-- Witness for C7: a light-client slot-rule fixture with `config.yaml`
absent resolves to the directory fork. -/
theorem c7_witness_absent_config :
    resolve_fork [] "altair" "light_client" "update_ranking" "tc"
      "update_5_0xab.ssz_snappy" .absent .absent = .ok "altair" :=
  c7_missing_sidecar_degrades.2.2 [] "altair" "update_ranking" "tc"
    "update_5_0xab.ssz_snappy" .absent 5 (by decide) (by decide)

theorem transitionPreRule_blocks (pfo : List (String × String)) (F fn : String)
    (meta : SidecarFile MetaYaml) (prev : String)
    (hstart : strStartsWith fn "blocks_" = true) :
    transitionPreRule pfo F "transition" fn meta prev = .ok prev := by
  unfold transitionPreRule
  simp [startsWith_blocks_beq_pre_false fn hstart]

theorem resolve_fork_transition_blocks (pfo : List (String × String))
    (F ts tc fn : String) (meta : SidecarFile MetaYaml) (config : SidecarFile ConfigYaml)
    (hstart : strStartsWith fn "blocks_" = true) :
    resolve_fork pfo F "transition" ts tc fn meta config =
      match transitionBlocksRule pfo F "transition" fn meta F with
      | .error e => .error e
      | .ok f3 => .ok f3 := by
  unfold resolve_fork
  have h1 : ∀ prev, transitionPreRule pfo F "transition" fn meta prev = .ok prev :=
    fun prev => transitionPreRule_blocks pfo F fn meta prev hstart
  simp only [h1]
  rfl

theorem transitionBlocksRule_parsed (pfo : List (String × String)) (F fn : String)
    (m : MetaYaml) (N : Int) (prev : String)
    (hstart : strStartsWith fn "blocks_" = true)
    (hparse : parseBlockIndex fn = some N) :
    transitionBlocksRule pfo F "transition" fn (.parsed m) prev =
      (match m.fork_block with
       | none => .ok prev
       | some fork_block =>
           if N ≤ fork_block then
             match pfo.lookup (strLower (m.post_fork.getD F)) with
             | some p => .ok p
             | none => .ok prev
           else .ok (strLower (m.post_fork.getD F))) := by
  unfold transitionBlocksRule
  simp +decide [hstart, hparse]

/-- C4 (amended): for a multi-block `transition` fixture `blocks_N`, when the
metadata supplies `post_fork` and `fork_block = T`, `resolve_fork` returns
the table predecessor of `post_fork` when `N ≤ T` (the directory fork when no
predecessor entry exists) and `post_fork` itself when `N > T`; a missing
metadata file or missing `fork_block` key falls back to the directory fork
without failure.  (In the original claim a missing `post_fork` key also fell
back to the directory fork; in the code it defaults `post_fork` to the
directory fork and the `N ≤ T` rule still applies, so that part is
amended.) -/
theorem c4_multi_block_transition (pfo : List (String × String))
    (F ts tc fn pf : String) (N T : Int) (m : MetaYaml)
    (config : SidecarFile ConfigYaml)
    (hstart : strStartsWith fn "blocks_" = true)
    (hparse : parseBlockIndex fn = some N) :
    (resolve_fork pfo F "transition" ts tc fn .absent config = .ok F)
    ∧ (m.fork_block = none →
        resolve_fork pfo F "transition" ts tc fn (.parsed m) config = .ok F)
    ∧ (m.post_fork = some pf → m.fork_block = some T → N ≤ T →
        ∀ P, pfo.lookup (strLower pf) = some P →
          resolve_fork pfo F "transition" ts tc fn (.parsed m) config = .ok P)
    ∧ (m.post_fork = some pf → m.fork_block = some T → N ≤ T →
        pfo.lookup (strLower pf) = none →
          resolve_fork pfo F "transition" ts tc fn (.parsed m) config = .ok F)
    ∧ (m.post_fork = some pf → m.fork_block = some T → T < N →
        resolve_fork pfo F "transition" ts tc fn (.parsed m) config
          = .ok (strLower pf)) := by
  refine ⟨?_, fun hfb => ?_, fun hpf hfb hNT P hP => ?_, fun hpf hfb hNT hP => ?_,
    fun hpf hfb hTN => ?_⟩
  · rw [resolve_fork_transition_blocks pfo F ts tc fn .absent config hstart,
      transitionBlocksRule_absent]
  · rw [resolve_fork_transition_blocks pfo F ts tc fn (.parsed m) config hstart,
      transitionBlocksRule_parsed pfo F fn m N F hstart hparse, hfb]
  · rw [resolve_fork_transition_blocks pfo F ts tc fn (.parsed m) config hstart,
      transitionBlocksRule_parsed pfo F fn m N F hstart hparse, hfb, hpf]
    simp only [Option.getD_some, if_pos hNT, hP]
  · rw [resolve_fork_transition_blocks pfo F ts tc fn (.parsed m) config hstart,
      transitionBlocksRule_parsed pfo F fn m N F hstart hparse, hfb, hpf]
    simp only [Option.getD_some, if_pos hNT, hP]
  · rw [resolve_fork_transition_blocks pfo F ts tc fn (.parsed m) config hstart,
      transitionBlocksRule_parsed pfo F fn m N F hstart hparse, hfb, hpf]
    simp only [Option.getD_some]
    rw [if_neg (by omega)]

/-- Counterexample for C4 as stated: `blocks_0` with metadata lacking
`post_fork` but carrying `fork_block = 5` resolves to `phase0`, the
predecessor of the directory fork `altair` — not to the directory fork the
claim promises for a missing metadata key. -/
theorem c4_counterexample_missing_postfork :
    resolve_fork [("altair", "phase0")] "altair" "transition" "core" "t"
      "blocks_0.ssz_snappy" (.parsed ⟨none, some 5⟩) .absent = .ok "phase0"
    ∧ ("phase0" : String) ≠ "altair" := ⟨rfl, by decide⟩

/-- Witness for C4: `blocks_0` at or before `fork_block = 1` with
`post_fork = bellatrix` resolves to the predecessor `altair`. -/
theorem c4_witness_blocks :
    resolve_fork [("bellatrix", "altair")] "bellatrix" "transition" "core" "t"
      "blocks_0.ssz_snappy" (.parsed ⟨some "bellatrix", some 1⟩) .absent
      = .ok "altair" :=
  (c4_multi_block_transition [("bellatrix", "altair")] "bellatrix" "core" "t"
    "blocks_0.ssz_snappy" "bellatrix" 0 1 ⟨some "bellatrix", some 1⟩ .absent
    (by decide) (by decide)).2.2.1 rfl rfl (by decide) "altair" (by decide)

/-- If every activation-epoch key other than that of `V2` is absent and the
epoch satisfies the key of `V2`, the walk keeps returning `V2` once selected. -/
theorem walk_forks_keep (eps : List (String × Int)) (ep : Int) (V2 : String) (e : Int)
    (hkey : eps.lookup (strUpper V2 ++ "_FORK_EPOCH") = some e) (hsat : e ≤ ep) :
    ∀ l : List String,
      (∀ f ∈ l, f ≠ V2 → eps.lookup (strUpper f ++ "_FORK_EPOCH") = none) →
      walk_forks eps ep l V2 = V2 := by
  intro l
  induction l with
  | nil => intro _; rfl
  | cons f rest ih =>
      intro h
      by_cases hf : f = V2
      · subst hf
        simp only [walk_forks, hkey, if_pos hsat]
        exact ih (fun g hg hgne => h g (List.mem_cons_of_mem f hg) hgne)
      · have hnone := h f (List.mem_cons_self f rest) hf
        simp only [walk_forks, hnone]
        exact ih (fun g hg hgne => h g (List.mem_cons_of_mem f hg) hgne)

/-- If every activation-epoch key other than that of `V2` is absent, the
epoch satisfies the key of `V2`, and `V2` is in the walked list, the walk
returns `V2` whatever the initial selection. -/
theorem walk_forks_select (eps : List (String × Int)) (ep : Int) (V2 : String) (e : Int)
    (hkey : eps.lookup (strUpper V2 ++ "_FORK_EPOCH") = some e) (hsat : e ≤ ep) :
    ∀ (l : List String) (sel : String), V2 ∈ l →
      (∀ f ∈ l, f ≠ V2 → eps.lookup (strUpper f ++ "_FORK_EPOCH") = none) →
      walk_forks eps ep l sel = V2 := by
  intro l
  induction l with
  | nil => intro sel hmem _; exact absurd hmem (List.not_mem_nil V2)
  | cons f rest ih =>
      intro sel hmem h
      by_cases hf : f = V2
      · subst hf
        simp only [walk_forks, hkey, if_pos hsat]
        exact walk_forks_keep eps ep f e hkey hsat rest
          (fun g hg hgne => h g (List.mem_cons_of_mem f hg) hgne)
      · have hnone := h f (List.mem_cons_self f rest) hf
        simp only [walk_forks, hnone]
        have hmem2 : V2 ∈ rest := by
          rcases List.mem_cons.mp hmem with h1 | h1
          · exact absurd h1.symm hf
          · exact h1
        exact ih sel hmem2 (fun g hg hgne => h g (List.mem_cons_of_mem f hg) hgne)

/-- C1: for a light-client fixture whose filename carries a recognised
prefix and a slot number `S`, with a parsed sidecar configuration, the slot
is converted to `epoch = S / K` with `K = 8` on the `minimal` preset base
and `32` otherwise, and the walk over the fixed ascending fork list starting
at the directory fork advances exactly per the present activation-epoch
keys: with exactly one activation-epoch key, belonging to a version `V2` at
or after the directory fork and satisfied at that epoch, `resolve_fork`
returns `V2`, not the directory fork. -/
theorem c1_light_client_slot_rule (pfo : List (String × String))
    (F V2 ts tc fn : String) (S e : Int) (meta : SidecarFile MetaYaml) (c : ConfigYaml)
    (hpre : lc_slot_prefixes.any (fun pre => strStartsWith fn pre) = true)
    (hslot : firstIntPart fn = some S)
    (hkey : c.fork_epochs.lookup (strUpper V2 ++ "_FORK_EPOCH") = some e)
    (hsat : e ≤ Int.fdiv S
      (if strLower (c.preset_base.getD "mainnet") == "minimal" then 8 else 32))
    (honly : ∀ f ∈ all_forks, f ≠ V2 →
        c.fork_epochs.lookup (strUpper f ++ "_FORK_EPOCH") = none)
    (hmem : V2 ∈ all_forks.drop (currentForkIdx F))
    (hne : V2 ≠ F) :
    resolve_fork pfo F "light_client" ts tc fn meta (.parsed c) = .ok V2 := by
  have h0 : resolve_fork pfo F "light_client" ts tc fn meta (.parsed c)
      = lightClientRule F "light_client" ts tc fn (.parsed c) F := rfl
  have hwalk : walk_forks c.fork_epochs
      (Int.fdiv S (if strLower (c.preset_base.getD "mainnet") == "minimal" then 8 else 32))
      (all_forks.drop (currentForkIdx F)) F = V2 :=
    walk_forks_select c.fork_epochs _ V2 e hkey hsat _ F hmem
      (fun f hf => honly f (List.drop_subset _ _ hf))
  rw [h0]
  unfold lightClientRule
  simp only [hpre, hslot, hwalk]
  simp [hne]

/-- Witness for C1: slot 96, mainnet preset base (epoch 3), single key
`DENEB_FORK_EPOCH = 3`, directory fork `altair`: resolution yields `deneb`. -/
theorem c1_witness_deneb :
    resolve_fork [] "altair" "light_client" "update_ranking" "tc"
      "update_96_0xabc.ssz_snappy" .absent
      (.parsed ⟨some "mainnet", [("DENEB_FORK_EPOCH", 3)]⟩) = .ok "deneb" :=
  c1_light_client_slot_rule [] "altair" "deneb" "update_ranking" "tc"
    "update_96_0xabc.ssz_snappy" 96 3 .absent
    ⟨some "mainnet", [("DENEB_FORK_EPOCH", 3)]⟩
    (by decide) (by decide) (by decide) (by decide) (by decide) (by decide)
    (by decide)

/-- Counterexample for C5 as stated: an `ssz_static` fixture named
`pre.ssz_snappy` takes its type from the suite segment (`Checkpoint`), not
the top-level state type, so the rule does not hold regardless of
category. -/
theorem c5_counterexample_ssz_static :
    parse_ssz_path []
      ["tests", "mainnet", "phase0", "ssz_static", "Checkpoint", "ssz_random",
       "case_0", "pre.ssz_snappy"] .absent .absent
      = .ok ⟨"mainnet", "phase0", "Checkpoint", "pre.ssz_snappy"⟩
    ∧ ("Checkpoint" : String) ≠ "BeaconState" := ⟨rfl, by decide⟩

/-- C5 (amended): for every fixture whose category is not `ssz_static`, a
filename stem of `pre`, `post`, `pre_epoch`, `post_epoch` or `initial_state`
derives the top-level state type `BeaconState`, whatever the suite and
whatever path segment follows it. -/
theorem c5_state_filenames_beacon_state (tt ts fn : String) (seg : Option String)
    (h1 : (tt == "ssz_static") = false) (h2 : fn ∈ pre_state_filenames) :
    derive_type_name tt ts fn seg = .ok "BeaconState" := by
  fin_cases h2 <;>
    simp +decide [derive_type_name, h1, derive_type_from_suite, fixedFilenameRule,
      orTry, pre_state_filenames]

/-- Witness for C5: `post.ssz_snappy` in an operations suite derives
`BeaconState`. -/
theorem c5_witness_post :
    derive_type_name "operations" "attestation" "post.ssz_snappy" none
      = .ok "BeaconState" :=
  c5_state_filenames_beacon_state "operations" "attestation" "post.ssz_snappy" none
    (by decide) (by decide)

/-- The retry loop returns the first successful alternative and re-raises
the original error when there is none. -/
theorem tryAlternatives_firstSuccess {Ty Obj : Type}
    (typeLookup : String → Except String Ty) (decodeBytes : Ty → Except String Obj)
    (l : List String) (e : String) :
    tryAlternatives typeLookup decodeBytes l e =
      match firstSuccess typeLookup decodeBytes l with
      | some (obj, alt) => .ok (obj, alt)
      | none => .error e := by
  induction l with
  | nil => rfl
  | cons a rest ih =>
      simp only [tryAlternatives, firstSuccess]
      cases decodeAttempt typeLookup decodeBytes a with
      | ok obj => rfl
      | error _ => rw [ih]

/-- C2 (amended): when the primary decode of a fixture fails, the
dispatcher retries exactly when the path marks a light-client sync fixture,
taking its candidates from the fixed list `[deneb, electra, capella,
bellatrix, altair]` in that fixed order — each candidate that occurs in the
lower-cased path and differs from the attempted fork — returning the first
success with its fork recorded, and re-raising the original error (not the
last candidate error) when all candidates fail; in every other category the
primary failure propagates with no retry.  (The original claim promised
candidates drawn from all known versions in path-occurrence order, refuted
separately.) -/
theorem c2_retry_fixed_order {Ty Obj : Type} (pfo : List (String × String))
    (parts : List String) (meta : SidecarFile MetaYaml)
    (config : SidecarFile ConfigYaml) (typeLookup : String → Except String Ty)
    (decodeBytes : Ty → Except String Obj) (r : ParseResult) (ty : Ty) (e : String)
    (hparse : parse_ssz_path pfo parts meta config = .ok r)
    (hty : typeLookup r.fork = .ok ty)
    (hdec : decodeBytes ty = .error e) :
    deserialize_ssz_file pfo parts meta config typeLookup decodeBytes =
      match firstSuccess typeLookup decodeBytes
          (if is_light_client_sync parts then alternative_forks parts r.fork
           else []) with
      | some (obj, alt) => .ok (obj, alt)
      | none => .error e := by
  unfold deserialize_ssz_file
  rw [hparse]
  simp only [hty, hdec]
  cases his : is_light_client_sync parts with
  | false => rfl
  | true =>
      simp only [if_true, Bool.true_and]
      cases halt : (alternative_forks parts r.fork).isEmpty with
      | true =>
          rcases List.isEmpty_iff.mp halt with h
          rw [h]
          rfl
      | false =>
          simp only [Bool.not_false, if_true]
          exact tryAlternatives_firstSuccess typeLookup decodeBytes _ e

/-- Counterexample for C2 as stated: on a sync fixture whose path embeds
`bellatrix` before `deneb`, the code retries `deneb` first (fixed candidate
order) while the claimed path-occurrence order would retry `bellatrix`
first; with bytes decodable under both, the two policies return different
objects and record different forks. -/
theorem c2_retry_counterexample :
    deserialize_ssz_file []
      ["tests", "mainnet", "altair", "light_client", "sync", "pyspec_tests",
       "bellatrix_deneb_x", "update_0xh.ssz_snappy"] .absent .absent
      (fun f => (.ok f : Except String String))
      (fun ty => if ty == "altair" then .error "boom" else .ok ty)
      = .ok ("deneb", "deneb")
    ∧ deserialize_ssz_file_claim []
      ["tests", "mainnet", "altair", "light_client", "sync", "pyspec_tests",
       "bellatrix_deneb_x", "update_0xh.ssz_snappy"] .absent .absent
      (fun f => (.ok f : Except String String))
      (fun ty => if ty == "altair" then .error "boom" else .ok ty)
      = .ok ("bellatrix", "bellatrix")
    ∧ (Except.ok ("deneb", "deneb") : Except String (String × String))
        ≠ .ok ("bellatrix", "bellatrix") :=
  ⟨rfl, rfl, fun h => absurd (Except.ok.inj h) (by decide)⟩

/-- Witness for C2: primary decode under `altair` fails, the retry under
the fixed candidate list succeeds with `deneb`, which is recorded as the
fork of the returned object. -/
theorem c2_witness_retry :
    deserialize_ssz_file []
      ["tests", "mainnet", "altair", "light_client", "sync", "pyspec_tests",
       "bellatrix_deneb_x", "update_0xh.ssz_snappy"] .absent .absent
      (fun f => (.ok f : Except String String))
      (fun ty => if ty == "altair" then .error "boom" else .ok ty)
      = .ok ("deneb", "deneb") := by
  rw [c2_retry_fixed_order []
    ["tests", "mainnet", "altair", "light_client", "sync", "pyspec_tests",
     "bellatrix_deneb_x", "update_0xh.ssz_snappy"] .absent .absent
    (fun f => (.ok f : Except String String))
    (fun ty => if ty == "altair" then .error "boom" else .ok ty)
    ⟨"mainnet", "altair", "LightClientUpdate", "update_0xh.ssz_snappy"⟩
    "altair" "boom" rfl rfl rfl]
  rfl

theorem processFile_total_ssz (fs : List (List String)) (st : Report) (p : List String) :
    (processFile fs st p).total_ssz
      = st.total_ssz + (if isSszName (p.getLastD "") then 1 else 0) := by
  unfold processFile
  repeat' split
  all_goals simp_all

theorem processFile_total_yaml (fs : List (List String)) (st : Report) (p : List String) :
    (processFile fs st p).total_yaml
      = st.total_yaml
        + (if isSszName (p.getLastD "") && fs.contains (companionPath p) then 1
           else 0) := by
  unfold processFile
  repeat' split
  all_goals simp_all

theorem processFile_missing_count (fs : List (List String)) (st : Report) (p : List String) :
    (processFile fs st p).missing_count
      = st.missing_count
        + (if isSszName (p.getLastD "") && !(fs.contains (companionPath p)) then 1
           else 0) := by
  unfold processFile
  repeat' split
  all_goals simp_all

theorem processFile_missing_files (fs : List (List String)) (st : Report)
    (p : List String) (h4 : isSszName (p.getLastD "") = true → 4 ≤ p.length) :
    (processFile fs st p).missing_files
      = st.missing_files
        ++ (if isSszName (p.getLastD "") && !(fs.contains (companionPath p))
            then [joinSlash p] else []) := by
  unfold processFile
  repeat' split
  all_goals simp_all

theorem processFile_by_type (fs : List (List String)) (st : Report)
    (p : List String) (h4 : isSszName (p.getLastD "") = true → 4 ≤ p.length) :
    (processFile fs st p).missing_by_test_type
      = if isSszName (p.getLastD "") && !(fs.contains (companionPath p))
        then bump st.missing_by_test_type (testKey p)
        else st.missing_by_test_type := by
  unfold processFile
  repeat' split
  all_goals simp_all

theorem foldl_total_ssz (fs : List (List String)) :
    ∀ (l : List (List String)) (st : Report),
      (l.foldl (processFile fs) st).total_ssz
        = st.total_ssz + (l.filter (fun p => isSszName (p.getLastD ""))).length := by
  intro l
  induction l with
  | nil => intro st; simp
  | cons p rest ih =>
      intro st
      rw [List.foldl_cons, ih, processFile_total_ssz, List.filter_cons]
      cases h : isSszName (p.getLastD "") <;> simp [h] <;> omega

theorem foldl_total_yaml (fs : List (List String)) :
    ∀ (l : List (List String)) (st : Report),
      (l.foldl (processFile fs) st).total_yaml
        = st.total_yaml
          + (l.filter (fun p =>
              isSszName (p.getLastD "") && fs.contains (companionPath p))).length := by
  intro l
  induction l with
  | nil => intro st; simp
  | cons p rest ih =>
      intro st
      rw [List.foldl_cons, ih, processFile_total_yaml, List.filter_cons]
      cases h : isSszName (p.getLastD "") && fs.contains (companionPath p) <;>
        simp [h] <;> omega

theorem foldl_missing_count (fs : List (List String)) :
    ∀ (l : List (List String)) (st : Report),
      (l.foldl (processFile fs) st).missing_count
        = st.missing_count
          + (l.filter (fun p =>
              isSszName (p.getLastD "") && !(fs.contains (companionPath p)))).length := by
  intro l
  induction l with
  | nil => intro st; simp
  | cons p rest ih =>
      intro st
      rw [List.foldl_cons, ih, processFile_missing_count, List.filter_cons]
      cases h : isSszName (p.getLastD "") && !(fs.contains (companionPath p)) <;>
        simp [h] <;> omega

theorem foldl_missing_files (fs : List (List String)) :
    ∀ (l : List (List String)) (st : Report),
      (∀ p ∈ l, isSszName (p.getLastD "") = true → 4 ≤ p.length) →
      (l.foldl (processFile fs) st).missing_files
        = st.missing_files
          ++ (l.filter (fun p =>
              isSszName (p.getLastD "") && !(fs.contains (companionPath p)))).map
              joinSlash := by
  intro l
  induction l with
  | nil => intro st _; simp
  | cons p rest ih =>
      intro st hd
      rw [List.foldl_cons, ih _ (fun q hq => hd q (List.mem_cons_of_mem p hq)),
        processFile_missing_files fs st p (hd p (List.mem_cons_self p rest)),
        List.filter_cons]
      cases h : isSszName (p.getLastD "") && !(fs.contains (companionPath p)) <;>
        simp [h]

theorem foldl_by_type (fs : List (List String)) :
    ∀ (l : List (List String)) (st : Report),
      (∀ p ∈ l, isSszName (p.getLastD "") = true → 4 ≤ p.length) →
      (l.foldl (processFile fs) st).missing_by_test_type
        = (l.filter (fun p =>
            isSszName (p.getLastD "") && !(fs.contains (companionPath p)))).foldl
            (fun m p => bump m (testKey p)) st.missing_by_test_type := by
  intro l
  induction l with
  | nil => intro st _; simp
  | cons p rest ih =>
      intro st hd
      rw [List.foldl_cons, ih _ (fun q hq => hd q (List.mem_cons_of_mem p hq)),
        processFile_by_type fs st p (hd p (List.mem_cons_self p rest)),
        List.filter_cons]
      cases h : isSszName (p.getLastD "") && !(fs.contains (companionPath p)) <;>
        simp [h]

theorem countKey_bump (m : List (String × Nat)) (k q : String) :
    countKey (bump m k) q = countKey m q + (if k = q then 1 else 0) := by
  induction m with
  | nil =>
      by_cases h : k = q
      · subst h; simp [bump, countKey, List.lookup]
      · simp [bump, countKey, List.lookup, beq_eq_false_iff_ne.mpr (Ne.symm h), h]
  | cons kv rest ih =>
      obtain ⟨k₁, n⟩ := kv
      by_cases h1 : k₁ = k
      · subst h1
        by_cases h2 : k₁ = q
        · subst h2; simp [bump, countKey, List.lookup]
        · simp [bump, countKey, List.lookup, beq_eq_false_iff_ne.mpr (Ne.symm h2), h2]
      · by_cases h2 : q = k₁
        · subst h2
          simp [bump, countKey, List.lookup, beq_eq_false_iff_ne.mpr h1]
          exact fun hh => h1 hh.symm
        · have e1 : (k₁ == k) = false := beq_eq_false_iff_ne.mpr h1
          have e2 : (q == k₁) = false := beq_eq_false_iff_ne.mpr h2
          simp only [bump, e1, Bool.false_eq_true, if_false, countKey, List.lookup, e2]
          exact ih

theorem countKey_foldl_bump (k : String) :
    ∀ (ps : List (List String)) (m : List (String × Nat)),
      countKey (ps.foldl (fun m p => bump m (testKey p)) m) k
        = countKey m k + (ps.filter (fun p => testKey p == k)).length := by
  intro ps
  induction ps with
  | nil => intro m; simp
  | cons p rest ih =>
      intro m
      rw [List.foldl_cons, ih, countKey_bump, List.filter_cons]
      by_cases h : testKey p = k
      · simp [h]; omega
      · simp [h, beq_eq_false_iff_ne.mpr h]

/-- C8: in every audit run whose binary fixtures all sit at depth at least
four (as the `preset/fork/category/suite/...` layout guarantees), each
binary fixture without a companion increments the global missing count,
increments the count of its four-segment category key, and is recorded in
the missing list by its path relative to the root; the three counters and
the two listings are exactly the corresponding filters of the walked
tree. -/
theorem c8_audit_report (fs : List (List String))
    (hdeep : ∀ p ∈ walkOrder fs, isSszName (p.getLastD "") = true → 4 ≤ p.length) :
    (check_missing_yamls fs).total_ssz
        = ((walkOrder fs).filter (fun p => isSszName (p.getLastD ""))).length
    ∧ (check_missing_yamls fs).total_yaml
        = ((walkOrder fs).filter (fun p =>
            isSszName (p.getLastD "") && fs.contains (companionPath p))).length
    ∧ (check_missing_yamls fs).missing_count = (missingFiles fs).length
    ∧ (check_missing_yamls fs).missing_files = (missingFiles fs).map joinSlash
    ∧ ∀ k, countKey (check_missing_yamls fs).missing_by_test_type k
        = ((missingFiles fs).filter (fun p => testKey p == k)).length := by
  unfold check_missing_yamls missingFiles
  refine ⟨?_, ?_, ?_, ?_, fun k => ?_⟩
  · rw [foldl_total_ssz]
    simp
  · rw [foldl_total_yaml]
    simp
  · rw [foldl_missing_count]
    simp
  · rw [foldl_missing_files fs (walkOrder fs) _ hdeep]
    rfl
  · rw [foldl_by_type fs (walkOrder fs) _ hdeep, countKey_foldl_bump]
    simp [countKey]

/-- Witness for C8: the ten-fixture scenario — `total=10`, `withCompanion=7`,
`missing=3`, category A count `2`, category B count `1`, and the missing
list holding exactly the three relative paths, in sorted order. -/
theorem c8_witness_scenario :
    (check_missing_yamls exampleTree).total_ssz = 10
    ∧ (check_missing_yamls exampleTree).total_yaml = 7
    ∧ (check_missing_yamls exampleTree).missing_count = 3
    ∧ countKey (check_missing_yamls exampleTree).missing_by_test_type
        "minimal/altair/operations/attestation" = 2
    ∧ countKey (check_missing_yamls exampleTree).missing_by_test_type
        "minimal/deneb/sanity/blocks" = 1
    ∧ (check_missing_yamls exampleTree).missing_files
        = ["minimal/altair/operations/attestation/case_1/post.ssz_snappy",
           "minimal/altair/operations/attestation/case_1/pre.ssz_snappy",
           "minimal/deneb/sanity/blocks/case_1/blocks_0.ssz_snappy"]
    ∧ (check_missing_yamls exampleTree).missing_files.Pairwise
        (fun a b => pyStrLe a b = true) := by
  obtain ⟨h1, h2, h3, h4, h5⟩ := c8_audit_report exampleTree (by decide)
  exact ⟨h1.trans (by rfl), h2.trans (by rfl), h3.trans (by rfl),
    (h5 "minimal/altair/operations/attestation").trans (by rfl),
    (h5 "minimal/deneb/sanity/blocks").trans (by rfl),
    h4.trans (by rfl), by rw [h4]; decide⟩

theorem processFile_balance (fs : List (List String)) (st : Report) (p : List String)
    (h : st.total_ssz = st.total_yaml + st.missing_count) :
    (processFile fs st p).total_ssz
      = (processFile fs st p).total_yaml + (processFile fs st p).missing_count := by
  unfold processFile
  repeat' split
  all_goals simp_all
  all_goals omega

theorem foldl_balance (fs : List (List String)) :
    ∀ (l : List (List String)) (st : Report),
      st.total_ssz = st.total_yaml + st.missing_count →
      (l.foldl (processFile fs) st).total_ssz
        = (l.foldl (processFile fs) st).total_yaml
          + (l.foldl (processFile fs) st).missing_count := by
  intro l
  induction l with
  | nil => intro st h; exact h
  | cons p rest ih =>
      intro st h
      rw [List.foldl_cons]
      exact ih _ (processFile_balance fs st p h)

/-- C10: in every audit run the report satisfies
`total = withCompanion + missing`: each binary fixture increments exactly
one of the two other counters. -/
theorem c10_total_balance (fs : List (List String)) :
    (check_missing_yamls fs).total_ssz
      = (check_missing_yamls fs).total_yaml
        + (check_missing_yamls fs).missing_count :=
  foldl_balance fs (walkOrder fs) ⟨0, 0, 0, [], []⟩ rfl

/-- C9: in the fork-transition table loaded from the (spec-modelled)
specification artifact, every version has at most one entry, the genesis
version `phase0` has none, and following predecessor links from any version
present in the table reaches `phase0` within the size of the table — the
loaded mapping has no cycles. -/
theorem c9_fork_table_acyclic :
    (PREVIOUS_FORK_OF.map Prod.fst).Nodup
    ∧ PREVIOUS_FORK_OF.lookup "phase0" = none
    ∧ ((PREVIOUS_FORK_OF.map Prod.fst).all
        (fun f => predChain PREVIOUS_FORK_OF 8 f == "phase0")) = true := by
  refine ⟨by decide, by rfl, by rfl⟩

end EthspecTools
